import Mathlib

/-!
# Trace query service of `app/trace_handler.go` and todo handlers of `app/main.go`

A shallow embedding of the trace query surface (`generateSampleTraces`,
`searchTraces`, `generateSampleTraceDetails`), of the handlers `updateTodo` and
`deleteTodo` with their routes, and the properties the specification states
about them.

Modelling conventions.

* A Go `string` holding UTF-8 text is a Lean `String`, i.e. its sequence of code
  points.  Substring search over the bytes of valid UTF-8 and over the code
  points agree.
* `int64` values are integers; every `int64` addition, subtraction and
  multiplication of the source is followed by `wrap64`, the two's complement
  wrap-around of Go.  `int` is taken 64 bits wide, and the loop counter, which
  is never negative, is a natural number.
* `time.Now().UnixNano()` is the parameter `now`.
* The handlers' HTTP plumbing (`r.URL.Query().Get`, JSON encoding, tracing
  spans) is left out: `searchTraces` takes `type` and `query` as arguments and
  returns the slice it encodes.
* A todo handler returns the response it writes together with the list of
  statements it sent through `db.ExecContext`; the database is a function from
  the statement to what `ExecContext` and `RowsAffected` return.  Logging and
  tracing calls have no effect on either and are left out.
-/

namespace TraceHandler

/-! ## Machine integers -/

/-- Two's complement reduction of an integer to the `int64` range. -/
def wrap64 (x : Int) : Int :=
  (x + 9223372036854775808) % 18446744073709551616 - 9223372036854775808

/-- Go `int64` addition. -/
def add64 (a b : Int) : Int := wrap64 (a + b)

/-- Go `int64` subtraction. -/
def sub64 (a b : Int) : Int := wrap64 (a - b)

/-- Go `int64` multiplication. -/
def mul64 (a b : Int) : Int := wrap64 (a * b)

/-- Membership in the `int64` range. -/
def inInt64 (x : Int) : Prop :=
  -9223372036854775808 ≤ x ∧ x ≤ 9223372036854775807

/-! ## Strings of the Go standard library -/

/-- Go `strings.Contains` on code point sequences: `substr` starts at some
position of `s`. -/
def containsChars : List Char → List Char → Bool
  | [], substr => substr.isPrefixOf []
  | c :: s, substr => substr.isPrefixOf (c :: s) || containsChars s substr

/-- Go `strings.Contains(s, substr)`. -/
def Contains (s substr : String) : Bool := containsChars s.data substr.data

/-- The test `c < utf8.RuneSelf` of `strings.ToLower`. -/
def isASCII (c : Char) : Bool := decide (c.toNat < 128)

/-- The byte-wise step of the ASCII branch of `strings.ToLower`:
`'A' <= c && c <= 'Z'` gives `c + ('a' - 'A')`. -/
def asciiLower (c : Char) : Char :=
  if 65 ≤ c.toNat ∧ c.toNat ≤ 90 then Char.ofNat (c.toNat + 32) else c

/-- Go `strings.ToLower`.  A string of ASCII characters only is lowered
byte-wise; any other string is mapped rune by rune through `unicode.ToLower`,
whose tables belong to the standard library and are the parameter `lr`. -/
def ToLower (lr : Char → Char) (s : String) : String :=
  if s.data.all isASCII then ⟨s.data.map asciiLower⟩ else ⟨s.data.map lr⟩

/-- Go `fmt.Sprintf("%d", i)` for a non-negative `i`. -/
def sprintD (i : Nat) : String := Nat.repr i

/-! ## Data model -/

/-- The values stored in a span's `map[string]interface{}`. -/
inductive AttrValue where
  | str (s : String)
  | int (n : Int)
  deriving DecidableEq, Repr

/-- Go `Span`. -/
structure Span where
  TraceID : String
  SpanID : String
  ParentSpanID : String
  Name : String
  StartTimeUnixNano : Int
  EndTimeUnixNano : Int
  DurationNanos : Int
  ServiceName : String
  Attributes : List (String × AttrValue)
  deriving DecidableEq, Repr

/-- Go `TraceInfo`. -/
structure TraceInfo where
  TraceID : String
  Name : String
  ServiceName : String
  StartTimeUnixNano : Int
  EndTimeUnixNano : Int
  DurationNanos : Int
  SpanCount : Nat
  deriving DecidableEq, Repr

/-- Go `TraceDetails`. -/
structure TraceDetails where
  TraceID : String
  Spans : List Span
  deriving DecidableEq, Repr

/-! ## `generateSampleTraces` -/

/-- The slice `todoOperation` of `generateSampleTraces`. -/
def todoOperation : List String :=
  ["getAllTodos", "createTodo", "updateTodo", "deleteTodo"]

/-- The slice `dbOperation` of `generateSampleTraces`. -/
def dbOperation : List String :=
  ["queryTodos.database", "createTodo.database", "updateTodo.database", "deleteTodo.database"]

/-- The body of the loop of `generateSampleTraces` at counter `i`: the summary
it appends. -/
def sampleTrace (now : Int) (i : Nat) : TraceInfo :=
  let operationName : String :=
    if i % 2 = 0 then
      todoOperation.get ⟨i % todoOperation.length, Nat.mod_lt _ (by decide)⟩
    else
      dbOperation.get ⟨i % dbOperation.length, Nat.mod_lt _ (by decide)⟩
  let serviceName : String := if i % 2 = 0 then "go-app" else "postgres"
  let duration : Int := mul64 (add64 10 (wrap64 ((i * 50 : Nat) : Int))) 1000000
  let startTime : Int := sub64 now (wrap64 ((i * 1000000000 : Nat) : Int))
  { TraceID := "trace-" ++ sprintD i
    Name := operationName
    ServiceName := serviceName
    StartTimeUnixNano := startTime
    EndTimeUnixNano := add64 startTime duration
    DurationNanos := duration
    SpanCount := 2 + i % 3 }

/-- Go `generateSampleTraces`: `for i := 0; i < 10; i++ { traces = append(traces, ...) }`. -/
def generateSampleTraces (now : Int) : List TraceInfo :=
  (List.range 10).foldl (fun traces i => traces ++ [sampleTrace now i]) []

/-! ## `searchTraces` -/

/-- One iteration of the filtering loop of `searchTraces`: the `switch` on
`searchType` for the summary `trace`. -/
def searchStep (lr : Char → Char) (searchType query : String)
    (filteredTraces : List TraceInfo) (trace : TraceInfo) : List TraceInfo :=
  if searchType = "trace" then
    if Contains trace.TraceID query then filteredTraces ++ [trace] else filteredTraces
  else if searchType = "service" then
    if Contains (ToLower lr trace.ServiceName) (ToLower lr query) then
      filteredTraces ++ [trace]
    else filteredTraces
  else if searchType = "operation" then
    if Contains (ToLower lr trace.Name) (ToLower lr query) then
      filteredTraces ++ [trace]
    else filteredTraces
  else filteredTraces ++ [trace]

/-- Go `searchTraces`: the slice `filteredTraces` it encodes, for the request
parameters `type` and `query`. -/
def searchTraces (lr : Char → Char) (now : Int) (searchType query : String) : List TraceInfo :=
  (generateSampleTraces now).foldl (searchStep lr searchType query) []

/-- Go `getRecentTraces`: the slice it encodes. -/
def getRecentTraces (now : Int) : List TraceInfo := generateSampleTraces now

/-! ## `generateSampleTraceDetails` -/

/-- The span `rootSpan` of `generateSampleTraceDetails`. -/
def rootSpan (now : Int) (traceID : String) : Span :=
  { TraceID := traceID
    SpanID := traceID ++ "-span-0"
    ParentSpanID := ""
    Name := "getAllTodos"
    StartTimeUnixNano := now
    EndTimeUnixNano := add64 now 200000000
    DurationNanos := 200000000
    ServiceName := "go-app"
    Attributes :=
      [("http.method", AttrValue.str "GET"), ("http.status_code", AttrValue.int 200),
        ("http.url", AttrValue.str "/api/todos")] }

/-- The span `dbSpan` of `generateSampleTraceDetails`. -/
def dbSpan (now : Int) (traceID : String) : Span :=
  { TraceID := traceID
    SpanID := traceID ++ "-span-1"
    ParentSpanID := (rootSpan now traceID).SpanID
    Name := "queryTodos.database"
    StartTimeUnixNano := add64 now 50000000
    EndTimeUnixNano := add64 now 180000000
    DurationNanos := 130000000
    ServiceName := "go-app"
    Attributes :=
      [("db.system", AttrValue.str "postgresql"),
        ("db.statement",
          AttrValue.str "SELECT id, title, completed, created_at FROM todos ORDER BY id"),
        ("todos.count", AttrValue.int 4)] }

/-- The span `sqlPrepareSpan` of `generateSampleTraceDetails`. -/
def sqlPrepareSpan (now : Int) (traceID : String) : Span :=
  { TraceID := traceID
    SpanID := traceID ++ "-span-2"
    ParentSpanID := (dbSpan now traceID).SpanID
    Name := "db.prepare"
    StartTimeUnixNano := add64 now 60000000
    EndTimeUnixNano := add64 now 80000000
    DurationNanos := 20000000
    ServiceName := "go-app"
    Attributes := [("db.system", AttrValue.str "postgresql")] }

/-- The span `sqlExecuteSpan` of `generateSampleTraceDetails`. -/
def sqlExecuteSpan (now : Int) (traceID : String) : Span :=
  { TraceID := traceID
    SpanID := traceID ++ "-span-3"
    ParentSpanID := (dbSpan now traceID).SpanID
    Name := "db.execute"
    StartTimeUnixNano := add64 now 90000000
    EndTimeUnixNano := add64 now 170000000
    DurationNanos := 80000000
    ServiceName := "go-app"
    Attributes := [("db.system", AttrValue.str "postgresql"), ("db.rows", AttrValue.int 4)] }

/-- Go `generateSampleTraceDetails`: the four spans are appended to `spans` in
turn. -/
def generateSampleTraceDetails (now : Int) (traceID : String) : TraceDetails :=
  let spans : List Span := []
  let spans := spans ++ [rootSpan now traceID]
  let spans := spans ++ [dbSpan now traceID]
  let spans := spans ++ [sqlPrepareSpan now traceID]
  let spans := spans ++ [sqlExecuteSpan now traceID]
  { TraceID := traceID, Spans := spans }

/-- Go `getTraceDetails`: the value it encodes for the trace id of the path. -/
def getTraceDetails (now : Int) (traceID : String) : TraceDetails :=
  generateSampleTraceDetails now traceID

/-! ## Specification-side notions -/

/-- Literal containment, as the specification words it: `query` occurs in `s`
as a contiguous run of characters. -/
def ContainsLiteral (s query : String) : Prop :=
  ∃ pre suf : List Char, s.data = pre ++ query.data ++ suf

/-- Two characters are the same letter up to case when the rune-level lower-case
map sends them to the same character. -/
def SameLetter (lr : Char → Char) (a b : Char) : Prop := lr a = lr b

/-- Case-insensitive containment, as the specification words it: some
contiguous run of `s` agrees with `query` character by character up to letter
case. -/
def ContainsIgnoringCase (lr : Char → Char) (s query : String) : Prop :=
  ∃ pre mid suf : List Char,
    s.data = pre ++ mid ++ suf ∧ List.Forall₂ (SameLetter lr) mid query.data

/-- The field of a summary that a search of kind `service` or `operation`
looks at. -/
def selectedField (searchType : String) (t : TraceInfo) : String :=
  if searchType = "service" then t.ServiceName else t.Name

/-- The condition under which the `switch` of `searchTraces` appends the
summary `trace` to `filteredTraces`. -/
def searchKeeps (lr : Char → Char) (searchType query : String) (trace : TraceInfo) : Bool :=
  if searchType = "trace" then Contains trace.TraceID query
  else if searchType = "service" then
    Contains (ToLower lr trace.ServiceName) (ToLower lr query)
  else if searchType = "operation" then
    Contains (ToLower lr trace.Name) (ToLower lr query)
  else true

/-- What the model asks of `unicode.ToLower`: on ASCII it is the byte-wise
lower-casing (Go: `if r <= MaxASCII { if 'A' <= r && r <= 'Z' { r += 'a' - 'A' }; return r }`). -/
def LowersASCII (lr : Char → Char) : Prop :=
  ∀ c : Char, isASCII c = true → lr c = asciiLower c

/-- The characters that occur in the trace ids of the sample set. -/
def traceIDAlphabet : List Char := "trace-0123456789".data

/-! ## Todo handlers of `app/main.go` -/

/-- The byte test `'0' <= ch && ch <= '9'`, also the class `[0-9]` of the route
pattern. -/
def isDigitChar (c : Char) : Bool := decide (48 ≤ c.toNat ∧ c.toNat ≤ 57)

/-- The decimal value of a run of digits: `n = n*10 + int(ch - '0')` for each
character in turn. -/
def parseDigits (digits : List Char) : Nat :=
  digits.foldl (fun n ch => n * 10 + (ch.toNat - 48)) 0

/-- Go `strconv.Atoi` with a 64-bit `int`: an optional sign, then one or more
decimal digits, and a value within the `int64` range; `none` stands for a
non-nil error (syntax or range). -/
def Atoi (s : String) : Option Int :=
  let digits : List Char :=
    match s.data with
    | '-' :: rest => rest
    | '+' :: rest => rest
    | all => all
  if digits.isEmpty || !digits.all isDigitChar then none
  else
    let n : Int := (parseDigits digits : Nat)
    let v : Int := if s.data.head? = some '-' then -n else n
    if -9223372036854775808 ≤ v ∧ v ≤ 9223372036854775807 then some v else none

/-- Go `Todo`; `CreatedAt` is kept as a number of nanoseconds. -/
structure Todo where
  ID : Int
  Title : String
  Completed : Bool
  CreatedAt : Int
  deriving DecidableEq, Repr

/-- The statements the handlers execute with `db.ExecContext`, with their
arguments: `UPDATE todos SET completed = $1 WHERE id = $2` and
`DELETE FROM todos WHERE id = $1`. -/
inductive StoreOp where
  | update (completed : Bool) (id : Int)
  | delete (id : Int)
  deriving DecidableEq, Repr

/-- What the store answers to a statement: `db.ExecContext` fails, or it
succeeds and `result.RowsAffected()` fails, or it returns the `int64` count. -/
inductive ExecResult where
  | execError (err : String)
  | rowsError (err : String)
  | rows (rowsAffected : Int)
  deriving DecidableEq, Repr

/-- A response body: nothing written, a JSON object of string fields, or plain
text. -/
inductive Body where
  | empty
  | json (fields : List (String × String))
  | text (s : String)
  deriving DecidableEq, Repr

/-- What a handler writes to its `http.ResponseWriter`. -/
structure Response where
  statusCode : Nat
  contentType : Option String
  body : Body
  deriving DecidableEq, Repr

/-- Go `handleError`: the `Content-Type` header, the status code, and the
object `map[string]string{"error": message}`. -/
def handleError (message : String) (statusCode : Nat) : Response :=
  { statusCode := statusCode
    contentType := some "application/json"
    body := Body.json [("error", message)] }

/-- The response of `w.WriteHeader(http.StatusNoContent)`. -/
def noContent : Response :=
  { statusCode := 204, contentType := none, body := Body.empty }

/-- Go `updateTodo`, for the route variable `params["id"]` and the outcome of
`json.NewDecoder(r.Body).Decode(&todo)` (`none` when it fails). -/
def updateTodo (db : StoreOp → ExecResult) (idParam : String) (decoded : Option Todo) :
    Response × List StoreOp :=
  match Atoi idParam with
  | none => (handleError "Invalid todo ID" 400, [])
  | some id =>
    match decoded with
    | none => (handleError "Invalid request payload" 400, [])
    | some todo =>
      match db (StoreOp.update todo.Completed id) with
      | ExecResult.execError _ =>
        (handleError "Failed to update todo" 500, [StoreOp.update todo.Completed id])
      | ExecResult.rowsError _ =>
        (handleError "Failed to get rows affected" 500, [StoreOp.update todo.Completed id])
      | ExecResult.rows rowsAffected =>
        if rowsAffected = 0 then
          (handleError "Todo not found" 404, [StoreOp.update todo.Completed id])
        else (noContent, [StoreOp.update todo.Completed id])

/-- Go `deleteTodo`, for the route variable `params["id"]`. -/
def deleteTodo (db : StoreOp → ExecResult) (idParam : String) : Response × List StoreOp :=
  match Atoi idParam with
  | none => (handleError "Invalid todo ID" 400, [])
  | some id =>
    match db (StoreOp.delete id) with
    | ExecResult.execError _ => (handleError "Failed to delete todo" 500, [StoreOp.delete id])
    | ExecResult.rowsError _ =>
      (handleError "Failed to get rows affected" 500, [StoreOp.delete id])
    | ExecResult.rows rowsAffected =>
      if rowsAffected = 0 then (handleError "Todo not found" 404, [StoreOp.delete id])
      else (noContent, [StoreOp.delete id])

/-- The two methods registered on the route `/todos/{id:[0-9]+}` in `main`. -/
inductive Method where
  | PUT
  | DELETE
  deriving DecidableEq, Repr

/-- The route pattern `{id:[0-9]+}` of `main`, which the router anchors at both
ends of the segment: one or more ASCII digits. -/
def matchesIdPattern (seg : String) : Bool :=
  !seg.data.isEmpty && seg.data.all isDigitChar

/-- The response of `http.NotFoundHandler()`, which the router serves when no
route matches. -/
def notFound : Response :=
  { statusCode := 404
    contentType := some "text/plain; charset=utf-8"
    body := Body.text "404 page not found\n" }

/-- The request paths the model of the router covers: `seg` is one path segment
of a path in canonical form (the router redirects a path with a `.` or `..`
segment before it routes). -/
def CanonicalSegment (seg : String) : Prop :=
  '/' ∉ seg.data ∧ seg ≠ "." ∧ seg ≠ ".."

/-- The routes `api.HandleFunc("/todos/{id:[0-9]+}", updateTodo).Methods("PUT")`
and `api.HandleFunc("/todos/{id:[0-9]+}", deleteTodo).Methods("DELETE")` of
`main`, for a request to `/api/todos/` followed by the segment `seg`: the
handler runs when the pattern matches, with `seg` as `params["id"]`. -/
def serveTodoItem (db : StoreOp → ExecResult) (method : Method) (seg : String)
    (decoded : Option Todo) : Response × List StoreOp :=
  if matchesIdPattern seg then
    match method with
    | Method.PUT => updateTodo db seg decoded
    | Method.DELETE => deleteTodo db seg
  else (notFound, [])

/-- The status contract the specification states for update and delete, for the
store answer `r` and the response `resp`: no row affected gives 404 with the
body `{"error": "Todo not found"}`, the status is 204 exactly when the
statement succeeds with a positive count, and a failed store call gives 500. -/
def StatusContract (r : ExecResult) (resp : Response) : Prop :=
  (r = ExecResult.rows 0 →
    resp.statusCode = 404 ∧ resp.body = Body.json [("error", "Todo not found")]) ∧
  (resp.statusCode = 204 ↔ ∃ n : Int, r = ExecResult.rows n ∧ 0 < n) ∧
  (∀ err : String, r = ExecResult.execError err → resp.statusCode = 500)

/-! ## Lemmas on strings -/

theorem containsChars_iff (s substr : List Char) :
    containsChars s substr = true ↔ substr <:+: s := by
  induction s with
  | nil => cases substr <;> simp [containsChars, List.isPrefixOf]
  | cons c s ih =>
    simp only [containsChars, Bool.or_eq_true, ih, List.infix_cons_iff,
      List.isPrefixOf_iff_prefix]

theorem Contains_iff_literal (s query : String) :
    Contains s query = true ↔ ContainsLiteral s query := by
  unfold Contains ContainsLiteral
  rw [containsChars_iff]
  constructor <;> rintro ⟨p, r, h⟩ <;> exact ⟨p, r, h.symm⟩

theorem Contains_empty (s : String) : Contains s "" = true := by
  rw [Contains_iff_literal]
  exact ⟨[], s.data, rfl⟩

theorem ToLower_eq_map (lr : Char → Char) (hlr : LowersASCII lr) (s : String) :
    ToLower lr s = ⟨s.data.map lr⟩ := by
  unfold ToLower
  split
  · next h =>
    congr 1
    apply List.map_congr_left
    intro c hc
    exact (hlr c (List.all_eq_true.mp h c hc)).symm
  · rfl

theorem ToLower_empty (lr : Char → Char) : ToLower lr "" = "" := rfl

theorem map_eq_map_iff_forall₂ (lr : Char → Char) (mid q : List Char) :
    mid.map lr = q.map lr ↔ List.Forall₂ (SameLetter lr) mid q := by
  induction mid generalizing q with
  | nil => cases q <;> simp
  | cons a mid ih =>
    cases q with
    | nil => simp
    | cons b q => simp [ih, SameLetter]

theorem infix_map_iff (lr : Char → Char) (q s : List Char) :
    q.map lr <:+: s.map lr ↔
      ∃ pre mid suf : List Char, s = pre ++ mid ++ suf ∧ mid.map lr = q.map lr := by
  constructor
  · rintro ⟨p, r, h⟩
    obtain ⟨l₁, suf, hs, h₁, hsuf⟩ := List.map_eq_append_iff.mp h.symm
    obtain ⟨pre, mid, hl₁, hpre, hmid⟩ := List.map_eq_append_iff.mp h₁
    exact ⟨pre, mid, suf, by rw [hs, hl₁], hmid⟩
  · rintro ⟨pre, mid, suf, hs, hmid⟩
    refine ⟨pre.map lr, suf.map lr, ?_⟩
    rw [hs, List.map_append, List.map_append, hmid]

theorem Contains_ToLower_iff (lr : Char → Char) (hlr : LowersASCII lr) (s query : String) :
    Contains (ToLower lr s) (ToLower lr query) = true ↔ ContainsIgnoringCase lr s query := by
  rw [ToLower_eq_map lr hlr, ToLower_eq_map lr hlr]
  unfold Contains ContainsIgnoringCase
  rw [containsChars_iff, infix_map_iff]
  simp only [map_eq_map_iff_forall₂]

/-! ## Lemmas on the loops -/

theorem generateSampleTraces_eq_map (now : Int) :
    generateSampleTraces now = (List.range 10).map (sampleTrace now) := rfl

theorem searchStep_eq (lr : Char → Char) (searchType query : String)
    (acc : List TraceInfo) (t : TraceInfo) :
    searchStep lr searchType query acc t
      = acc ++ (if searchKeeps lr searchType query t then [t] else []) := by
  unfold searchStep searchKeeps
  split_ifs <;> simp_all

theorem foldl_searchStep (lr : Char → Char) (searchType query : String)
    (l acc : List TraceInfo) :
    l.foldl (searchStep lr searchType query) acc
      = acc ++ l.filter (searchKeeps lr searchType query) := by
  induction l generalizing acc with
  | nil => simp
  | cons t l ih =>
    rw [List.foldl_cons, ih, searchStep_eq, List.filter_cons]
    split <;> simp

theorem searchTraces_eq_filter (lr : Char → Char) (now : Int) (searchType query : String) :
    searchTraces lr now searchType query
      = (generateSampleTraces now).filter (searchKeeps lr searchType query) := by
  unfold searchTraces
  rw [foldl_searchStep, List.nil_append]

theorem searchKeeps_trace (lr : Char → Char) (query : String) (t : TraceInfo) :
    searchKeeps lr "trace" query t = Contains t.TraceID query := by
  simp [searchKeeps]

theorem searchKeeps_service (lr : Char → Char) (query : String) (t : TraceInfo) :
    searchKeeps lr "service" query t
      = Contains (ToLower lr t.ServiceName) (ToLower lr query) := by
  simp [searchKeeps]

theorem searchKeeps_operation (lr : Char → Char) (query : String) (t : TraceInfo) :
    searchKeeps lr "operation" query t
      = Contains (ToLower lr t.Name) (ToLower lr query) := by
  simp [searchKeeps]

theorem sampleTrace_ServiceName (now : Int) (i : Nat) :
    (sampleTrace now i).ServiceName = if i % 2 = 0 then "go-app" else "postgres" := rfl

theorem searchKeeps_service_POST (lr : Char → Char) (now : Int) (i : Nat) :
    searchKeeps lr "service" "POST" (sampleTrace now i)
      = decide ((sampleTrace now i).ServiceName = "postgres") := by
  rw [searchKeeps_service, sampleTrace_ServiceName]
  split <;> rfl

theorem sampleTrace_TraceID (now : Int) (i : Nat) :
    (sampleTrace now i).TraceID = "trace-" ++ sprintD i := rfl

theorem traceID_chars_lt (i : Nat) (hi : i < 10) :
    ∀ c ∈ ("trace-" ++ sprintD i).data, c ∈ traceIDAlphabet := by
  interval_cases i <;> decide

theorem traceID_chars (now : Int) (t : TraceInfo) (ht : t ∈ generateSampleTraces now) :
    ∀ c ∈ t.TraceID.data, c ∈ traceIDAlphabet := by
  rw [generateSampleTraces_eq_map] at ht
  obtain ⟨i, hi, rfl⟩ := List.mem_map.mp ht
  rw [sampleTrace_TraceID]
  exact traceID_chars_lt i (List.mem_range.mp hi)

theorem traceIDAlphabet_fixed : ∀ c ∈ traceIDAlphabet, isASCII c = true ∧ asciiLower c = c := by
  decide

theorem forall₂_sameLetter_eq (lr : Char → Char) (l₁ l₂ : List Char)
    (h : List.Forall₂ (SameLetter lr) l₁ l₂)
    (h₁ : ∀ a ∈ l₁, lr a = a) (h₂ : ∀ b ∈ l₂, lr b = b) : l₁ = l₂ := by
  induction l₁ generalizing l₂ with
  | nil =>
    cases h
    rfl
  | cons a l₁ ih =>
    cases h with
    | cons hab htl =>
      rename_i b l₂
      have ha := h₁ a (List.mem_cons_self _ _)
      have hb := h₂ b (List.mem_cons_self _ _)
      have hab : lr a = lr b := hab
      rw [ha, hb] at hab
      rw [hab, ih l₂ htl (fun x hx => h₁ x (List.mem_cons_of_mem _ hx))
        (fun x hx => h₂ x (List.mem_cons_of_mem _ hx))]

theorem mem_of_literal (s q : String) (h : ContainsLiteral s q) : ∀ c ∈ q.data, c ∈ s.data := by
  obtain ⟨pre, suf, hs⟩ := h
  intro c hc
  rw [hs]
  simp [hc]

/-! ## Lemmas on the span generator -/

theorem generateSampleTraceDetails_Spans (now : Int) (traceID : String) :
    (generateSampleTraceDetails now traceID).Spans
      = [rootSpan now traceID, dbSpan now traceID, sqlPrepareSpan now traceID,
          sqlExecuteSpan now traceID] := rfl

theorem append_ne_append (traceID a b : String) (h : a ≠ b) : traceID ++ a ≠ traceID ++ b := by
  intro e
  apply h
  have hd := congrArg String.data e
  rw [String.data_append, String.data_append] at hd
  exact String.ext (List.append_cancel_left hd)

theorem append_suffix_ne_empty (traceID a : String) (h : a ≠ "") : traceID ++ a ≠ "" := by
  intro e
  apply h
  have hd := congrArg String.data e
  rw [String.data_append] at hd
  exact String.ext (List.append_eq_nil.mp hd).2

theorem wrap64_of_inInt64 (x : Int) (h : inInt64 x) : wrap64 x = x := by
  unfold inInt64 at h
  unfold wrap64
  omega

theorem sub64_add64_left (now k : Int) (hk : inInt64 k) : sub64 (add64 now k) now = k := by
  unfold inInt64 at hk
  unfold sub64 add64 wrap64
  omega

theorem sub64_add64_add64 (now j k : Int) (hk : inInt64 (k - j)) :
    sub64 (add64 now k) (add64 now j) = k - j := by
  unfold inInt64 at hk
  unfold sub64 add64 wrap64
  omega

theorem sampleTrace_SpanCount (now : Int) (i : Nat) :
    (sampleTrace now i).SpanCount = 2 + i % 3 := rfl

theorem details_spans_with_id (now : Int) (traceID : String) :
    ((generateSampleTraceDetails now traceID).Spans.filter
      (fun s => decide (s.TraceID = traceID))).length = 4 := by
  simp [generateSampleTraceDetails_Spans, rootSpan, dbSpan, sqlPrepareSpan, sqlExecuteSpan]

theorem sampleTrace_times (now : Int) (i : Nat) (hi : i < 10) (hnow : inInt64 now)
    (hlow : -9223372036854775808 ≤ now - 9000000000)
    (hhigh : now + 10000000 ≤ 9223372036854775807) :
    (sampleTrace now i).StartTimeUnixNano = now - (i : Int) * 1000000000 ∧
    (sampleTrace now i).DurationNanos = (10 + (i : Int) * 50) * 1000000 ∧
    (sampleTrace now i).EndTimeUnixNano
      = now - (i : Int) * 1000000000 + (10 + (i : Int) * 50) * 1000000 := by
  unfold inInt64 at hnow
  simp only [sampleTrace, add64, sub64, mul64, wrap64, Nat.cast_mul, Nat.cast_ofNat]
  omega

/-! ## Search -/

/-- C1: for the kinds `service` and `operation`, `searchTraces` returns the
candidate summaries, in candidate order, whose service name (resp. operation
name) contains the query up to letter case; and the search for `"POST"` among
the service names returns the `"postgres"` summaries and no `"go-app"` one. -/
theorem searchTraces_service_operation (lr : Char → Char) (hlr : LowersASCII lr) (now : Int)
    (searchType query : String)
    (hkind : searchType = "service" ∨ searchType = "operation") :
    (∃ p : TraceInfo → Bool,
      (∀ t, p t = true ↔ ContainsIgnoringCase lr (selectedField searchType t) query) ∧
      searchTraces lr now searchType query = (generateSampleTraces now).filter p) ∧
    searchTraces lr now "service" "POST"
      = (generateSampleTraces now).filter (fun t => decide (t.ServiceName = "postgres")) ∧
    (∀ t ∈ searchTraces lr now "service" "POST", t.ServiceName ≠ "go-app") ∧
    (searchTraces lr now "service" "POST").map (fun t => t.TraceID)
      = ["trace-1", "trace-3", "trace-5", "trace-7", "trace-9"] := by
  have hpost : searchTraces lr now "service" "POST"
      = (generateSampleTraces now).filter (fun t => decide (t.ServiceName = "postgres")) := by
    rw [searchTraces_eq_filter, generateSampleTraces_eq_map]
    apply List.filter_congr
    intro t ht
    obtain ⟨i, -, rfl⟩ := List.mem_map.mp ht
    exact searchKeeps_service_POST lr now i
  refine ⟨⟨searchKeeps lr searchType query, ?_, searchTraces_eq_filter lr now searchType query⟩,
    hpost, ?_, ?_⟩
  · intro t
    rcases hkind with h | h
    · subst h
      rw [searchKeeps_service, Contains_ToLower_iff lr hlr]
      rfl
    · subst h
      rw [searchKeeps_operation, Contains_ToLower_iff lr hlr]
      rfl
  · intro t ht
    rw [hpost] at ht
    have h := (List.mem_filter.mp ht).2
    rw [decide_eq_true_eq] at h
    rw [h]
    decide
  · rw [hpost]
    rfl

/-- Witness of C1: the search for `"POST"` among the service names, with the
byte-wise lower-casing as rune map. -/
theorem searchTraces_service_operation_witness :
    LowersASCII asciiLower ∧ (("service" : String) = "service" ∨ ("service" : String) = "operation") ∧
    ((∃ p : TraceInfo → Bool,
      (∀ t, p t = true ↔ ContainsIgnoringCase asciiLower (selectedField "service" t) "POST") ∧
      searchTraces asciiLower 0 "service" "POST" = (generateSampleTraces 0).filter p) ∧
    searchTraces asciiLower 0 "service" "POST"
      = (generateSampleTraces 0).filter (fun t => decide (t.ServiceName = "postgres")) ∧
    (∀ t ∈ searchTraces asciiLower 0 "service" "POST", t.ServiceName ≠ "go-app") ∧
    (searchTraces asciiLower 0 "service" "POST").map (fun t => t.TraceID)
      = ["trace-1", "trace-3", "trace-5", "trace-7", "trace-9"]) :=
  ⟨fun _ _ => rfl, Or.inl rfl,
    searchTraces_service_operation asciiLower (fun _ _ => rfl) 0 "service" "POST" (Or.inl rfl)⟩

/-- C2: for the kind `trace`, `searchTraces` returns the candidate summaries, in
candidate order, whose trace id contains the query literally; a query that
differs from a fragment of a candidate's trace id in letter case only, such as
`"TRACE"`, matches nothing. -/
theorem searchTraces_trace (lr : Char → Char) (now : Int) (query : String) :
    (∃ p : TraceInfo → Bool,
      (∀ t, p t = true ↔ ContainsLiteral t.TraceID query) ∧
      searchTraces lr now "trace" query = (generateSampleTraces now).filter p) ∧
    (LowersASCII lr → ∀ (frag : String) (t : TraceInfo), t ∈ generateSampleTraces now →
      ContainsLiteral t.TraceID frag → List.Forall₂ (SameLetter lr) query.data frag.data →
      query ≠ frag → searchTraces lr now "trace" query = []) ∧
    searchTraces lr now "trace" "TRACE" = [] := by
  refine ⟨⟨searchKeeps lr "trace" query, ?_, searchTraces_eq_filter lr now "trace" query⟩,
    ?_, ?_⟩
  · intro t
    rw [searchKeeps_trace, Contains_iff_literal]
  · intro hlr frag t ht hfrag hcase hne
    rw [searchTraces_eq_filter, List.filter_eq_nil_iff]
    intro u hu hkeep
    rw [searchKeeps_trace, Contains_iff_literal] at hkeep
    have hfix : ∀ c ∈ traceIDAlphabet, lr c = c := fun c hc => by
      rw [hlr c (traceIDAlphabet_fixed c hc).1, (traceIDAlphabet_fixed c hc).2]
    have hq : ∀ a ∈ query.data, lr a = a := fun a ha =>
      hfix a (traceID_chars now u hu a (mem_of_literal _ _ hkeep a ha))
    have hf : ∀ b ∈ frag.data, lr b = b := fun b hb =>
      hfix b (traceID_chars now t ht b (mem_of_literal _ _ hfrag b hb))
    exact hne (String.ext (forall₂_sameLetter_eq lr _ _ hcase hq hf))
  · rw [searchTraces_eq_filter, generateSampleTraces_eq_map, List.filter_eq_nil_iff]
    intro u hu
    obtain ⟨i, hi, rfl⟩ := List.mem_map.mp hu
    rw [searchKeeps_trace, sampleTrace_TraceID]
    have hi := List.mem_range.mp hi
    interval_cases i <;> decide

/-- Witness of C2: `"TRACE"` differs in letter case only from the fragment
`"trace"` of the id of the first sample summary. -/
theorem searchTraces_trace_witness :
    LowersASCII asciiLower ∧ sampleTrace 0 0 ∈ generateSampleTraces 0 ∧
    ContainsLiteral (sampleTrace 0 0).TraceID "trace" ∧
    List.Forall₂ (SameLetter asciiLower) ("TRACE" : String).data ("trace" : String).data ∧
    ("TRACE" : String) ≠ "trace" ∧
    searchTraces asciiLower 0 "trace" "TRACE" = [] :=
  have hlr : LowersASCII asciiLower := fun _ _ => rfl
  have hmem : sampleTrace 0 0 ∈ generateSampleTraces 0 := by
    rw [generateSampleTraces_eq_map]
    exact List.mem_map.mpr ⟨0, by decide, rfl⟩
  have hfrag : ContainsLiteral (sampleTrace 0 0).TraceID "trace" :=
    ⟨[], "-0".data, rfl⟩
  have hcase : List.Forall₂ (SameLetter asciiLower) ("TRACE" : String).data
      ("trace" : String).data := by
    rw [← map_eq_map_iff_forall₂]
    decide
  have hne : ("TRACE" : String) ≠ "trace" := by decide
  ⟨hlr, hmem, hfrag, hcase, hne,
    (searchTraces_trace asciiLower 0 "TRACE").2.1 hlr "trace" (sampleTrace 0 0) hmem hfrag
      hcase hne⟩

/-- C3: for a kind other than `trace`, `service` and `operation`, the empty kind
included, `searchTraces` returns the whole candidate list in order. -/
theorem searchTraces_other_kind (lr : Char → Char) (now : Int) (searchType query : String)
    (h₁ : searchType ≠ "trace") (h₂ : searchType ≠ "service") (h₃ : searchType ≠ "operation") :
    searchTraces lr now searchType query = generateSampleTraces now := by
  rw [searchTraces_eq_filter, List.filter_eq_self]
  intro t _
  simp [searchKeeps, h₁, h₂, h₃]

/-- Witness of C3: the absent kind (the empty string) with the query `"POST"`. -/
theorem searchTraces_other_kind_witness :
    ("" : String) ≠ "trace" ∧ ("" : String) ≠ "service" ∧ ("" : String) ≠ "operation" ∧
    searchTraces asciiLower 0 "" "POST" = generateSampleTraces 0 :=
  ⟨by decide, by decide, by decide,
    searchTraces_other_kind asciiLower 0 "" "POST" (by decide) (by decide) (by decide)⟩

/-- C4: under each of the kinds `trace`, `service` and `operation` the empty
query keeps every candidate, in order; in particular for `operation`. -/
theorem searchTraces_empty_query (lr : Char → Char) (now : Int) (searchType : String)
    (hkind : searchType = "trace" ∨ searchType = "service" ∨ searchType = "operation") :
    searchTraces lr now searchType "" = generateSampleTraces now ∧
    searchTraces lr now "operation" "" = generateSampleTraces now := by
  have key : ∀ ty : String, ty = "trace" ∨ ty = "service" ∨ ty = "operation" →
      searchTraces lr now ty "" = generateSampleTraces now := by
    intro ty hty
    rw [searchTraces_eq_filter, List.filter_eq_self]
    intro t _
    rcases hty with h | h | h <;> subst h
    · rw [searchKeeps_trace, Contains_empty]
    · rw [searchKeeps_service, ToLower_empty, Contains_empty]
    · rw [searchKeeps_operation, ToLower_empty, Contains_empty]
  exact ⟨key searchType hkind, key "operation" (Or.inr (Or.inr rfl))⟩

/-- Witness of C4: the kind `service` with the empty query. -/
theorem searchTraces_empty_query_witness :
    (("service" : String) = "trace" ∨ ("service" : String) = "service" ∨
      ("service" : String) = "operation") ∧
    searchTraces asciiLower 0 "service" "" = generateSampleTraces 0 ∧
    searchTraces asciiLower 0 "operation" "" = generateSampleTraces 0 :=
  ⟨Or.inr (Or.inl rfl),
    searchTraces_empty_query asciiLower 0 "service" (Or.inr (Or.inl rfl))⟩

/-! ## Trace details -/

/-- C5: in the result of `generateSampleTraceDetails`, for every trace id (the
empty one included) and clock value, every span carries the requested trace id,
and a span with a non-empty parent id has it equal to the span id of another,
different span of the result. -/
theorem details_parent_resolves (now : Int) (traceID : String) (s : Span)
    (hs : s ∈ (generateSampleTraceDetails now traceID).Spans) :
    s.TraceID = traceID ∧
    (s.ParentSpanID ≠ "" →
      ∃ t ∈ (generateSampleTraceDetails now traceID).Spans,
        t ≠ s ∧ t.SpanID ≠ s.SpanID ∧ t.SpanID = s.ParentSpanID) := by
  have h01 : traceID ++ "-span-0" ≠ traceID ++ "-span-1" :=
    append_ne_append _ _ _ (by decide)
  have h12 : traceID ++ "-span-1" ≠ traceID ++ "-span-2" :=
    append_ne_append _ _ _ (by decide)
  have h13 : traceID ++ "-span-1" ≠ traceID ++ "-span-3" :=
    append_ne_append _ _ _ (by decide)
  rw [generateSampleTraceDetails_Spans] at hs ⊢
  simp only [List.mem_cons, List.mem_singleton, List.not_mem_nil, or_false] at hs
  rcases hs with rfl | rfl | rfl | rfl
  · exact ⟨rfl, fun h => absurd rfl h⟩
  · refine ⟨rfl, fun _ => ⟨rootSpan now traceID, by simp, ?_, h01, rfl⟩⟩
    exact fun e => h01 (congrArg Span.SpanID e)
  · refine ⟨rfl, fun _ => ⟨dbSpan now traceID, by simp, ?_, h12, rfl⟩⟩
    exact fun e => h12 (congrArg Span.SpanID e)
  · refine ⟨rfl, fun _ => ⟨dbSpan now traceID, by simp, ?_, h13, rfl⟩⟩
    exact fun e => h13 (congrArg Span.SpanID e)

/-- Witness of C5: the database span of the trace with the empty id. -/
theorem details_parent_resolves_witness :
    dbSpan 0 "" ∈ (generateSampleTraceDetails 0 "").Spans ∧
    (dbSpan 0 "").TraceID = "" ∧
    ((dbSpan 0 "").ParentSpanID ≠ "" →
      ∃ t ∈ (generateSampleTraceDetails 0 "").Spans,
        t ≠ dbSpan 0 "" ∧ t.SpanID ≠ (dbSpan 0 "").SpanID ∧
        t.SpanID = (dbSpan 0 "").ParentSpanID) :=
  have hmem : dbSpan 0 "" ∈ (generateSampleTraceDetails 0 "").Spans := by
    rw [generateSampleTraceDetails_Spans]
    simp
  ⟨hmem, details_parent_resolves 0 "" (dbSpan 0 "") hmem⟩

/-- C6: every span of `generateSampleTraceDetails` has its duration equal to
its end time minus its start time in `int64` arithmetic, for every trace id
and clock value. -/
theorem details_duration (now : Int) (traceID : String) (s : Span)
    (hs : s ∈ (generateSampleTraceDetails now traceID).Spans) :
    s.DurationNanos = sub64 s.EndTimeUnixNano s.StartTimeUnixNano := by
  rw [generateSampleTraceDetails_Spans] at hs
  simp only [List.mem_cons, List.mem_singleton, List.not_mem_nil, or_false] at hs
  rcases hs with rfl | rfl | rfl | rfl
  · exact (sub64_add64_left now 200000000 (by unfold inInt64; omega)).symm
  · exact (sub64_add64_add64 now 50000000 180000000 (by unfold inInt64; omega)).symm
  · exact (sub64_add64_add64 now 60000000 80000000 (by unfold inInt64; omega)).symm
  · exact (sub64_add64_add64 now 90000000 170000000 (by unfold inInt64; omega)).symm

/-- Witness of C6: the execute span at the largest clock value, where the end
time wraps around. -/
theorem details_duration_witness :
    sqlExecuteSpan 9223372036854775807 "abc"
      ∈ (generateSampleTraceDetails 9223372036854775807 "abc").Spans ∧
    (sqlExecuteSpan 9223372036854775807 "abc").DurationNanos
      = sub64 (sqlExecuteSpan 9223372036854775807 "abc").EndTimeUnixNano
          (sqlExecuteSpan 9223372036854775807 "abc").StartTimeUnixNano :=
  have hmem : sqlExecuteSpan 9223372036854775807 "abc"
      ∈ (generateSampleTraceDetails 9223372036854775807 "abc").Spans := by
    rw [generateSampleTraceDetails_Spans]
    simp
  ⟨hmem, details_duration 9223372036854775807 "abc" _ hmem⟩

/-- C7, as stated, fails: two calls for the trace id `"abc"` one second apart
return different details, and already different start times. -/
theorem details_not_repeatable :
    generateSampleTraceDetails 0 "abc" ≠ generateSampleTraceDetails 1000000000 "abc" ∧
    (generateSampleTraceDetails 0 "abc").Spans.map (fun s => s.StartTimeUnixNano)
      ≠ (generateSampleTraceDetails 1000000000 "abc").Spans.map (fun s => s.StartTimeUnixNano) ∧
    (generateSampleTraceDetails 0 "abc").Spans.map (fun s => s.EndTimeUnixNano)
      ≠ (generateSampleTraceDetails 1000000000 "abc").Spans.map (fun s => s.EndTimeUnixNano) := by
  refine ⟨fun e => ?_, by decide, by decide⟩
  have h := congrArg (fun d => d.Spans.map (fun s => s.StartTimeUnixNano)) e
  revert h
  decide

/-- C7, amended: two calls for the same trace id return the same span ids,
parent ids, names, service names, attributes and durations, and start and end
times at the same `int64` offsets from the clock value each call reads; the two
results are equal exactly when both calls read the same clock value. -/
theorem details_repeatable_up_to_clock (now₁ now₂ : Int) (traceID : String) :
    (generateSampleTraceDetails now₁ traceID).Spans.map
        (fun s => (s.TraceID, s.SpanID, s.ParentSpanID, s.Name, s.DurationNanos, s.ServiceName,
          s.Attributes))
      = (generateSampleTraceDetails now₂ traceID).Spans.map
        (fun s => (s.TraceID, s.SpanID, s.ParentSpanID, s.Name, s.DurationNanos, s.ServiceName,
          s.Attributes)) ∧
    (generateSampleTraceDetails now₁ traceID).Spans.map
        (fun s => (sub64 s.StartTimeUnixNano now₁, sub64 s.EndTimeUnixNano now₁))
      = (generateSampleTraceDetails now₂ traceID).Spans.map
        (fun s => (sub64 s.StartTimeUnixNano now₂, sub64 s.EndTimeUnixNano now₂)) ∧
    (generateSampleTraceDetails now₁ traceID = generateSampleTraceDetails now₂ traceID
      ↔ now₁ = now₂) := by
  have hoff : ∀ now : Int,
      (generateSampleTraceDetails now traceID).Spans.map
        (fun s => (sub64 s.StartTimeUnixNano now, sub64 s.EndTimeUnixNano now))
      = [(0, 200000000), (50000000, 180000000), (60000000, 80000000),
          (90000000, 170000000)] := by
    intro now
    have h0 : sub64 now now = 0 := by
      unfold sub64 wrap64
      omega
    have hk : ∀ k : Int, inInt64 k → sub64 (add64 now k) now = k := sub64_add64_left now
    simp only [generateSampleTraceDetails_Spans, List.map_cons, List.map_nil, rootSpan, dbSpan,
      sqlPrepareSpan, sqlExecuteSpan, h0]
    rw [hk 200000000 (by unfold inInt64; omega), hk 50000000 (by unfold inInt64; omega),
      hk 180000000 (by unfold inInt64; omega), hk 60000000 (by unfold inInt64; omega),
      hk 80000000 (by unfold inInt64; omega), hk 90000000 (by unfold inInt64; omega),
      hk 170000000 (by unfold inInt64; omega)]
  refine ⟨rfl, by rw [hoff now₁, hoff now₂], fun e => ?_, fun e => by rw [e]⟩
  have h := congrArg (fun d => d.Spans.map (fun s => s.StartTimeUnixNano)) e
  simp only [generateSampleTraceDetails_Spans, List.map_cons, rootSpan] at h
  exact (List.cons.inj h).1

/-- C8: for a clock value whose sum with 200000000 fits `int64`, the result of
`generateSampleTraceDetails` is exactly four spans with pairwise distinct ids:
a root without parent, a database span under the root, and the spans
`db.prepare` and `db.execute` under the database span; prepare ends before
execute starts, both lie within the database span's window, and the database
span's window lies within the root's. -/
theorem details_tree (now : Int) (traceID : String) (hnow : inInt64 now)
    (hfit : now + 200000000 ≤ 9223372036854775807) :
    (generateSampleTraceDetails now traceID).Spans.length = 4 ∧
    ∃ root db prep exec : Span,
      (generateSampleTraceDetails now traceID).Spans = [root, db, prep, exec] ∧
      [root.SpanID, db.SpanID, prep.SpanID, exec.SpanID].Nodup ∧
      root.ParentSpanID = "" ∧
      db.ParentSpanID ≠ "" ∧ db.ParentSpanID = root.SpanID ∧
      prep.ParentSpanID ≠ "" ∧ prep.ParentSpanID = db.SpanID ∧ prep.Name = "db.prepare" ∧
      exec.ParentSpanID ≠ "" ∧ exec.ParentSpanID = db.SpanID ∧ exec.Name = "db.execute" ∧
      prep.StartTimeUnixNano ≤ prep.EndTimeUnixNano ∧
      prep.EndTimeUnixNano < exec.StartTimeUnixNano ∧
      exec.StartTimeUnixNano ≤ exec.EndTimeUnixNano ∧
      db.StartTimeUnixNano ≤ prep.StartTimeUnixNano ∧
      prep.EndTimeUnixNano ≤ db.EndTimeUnixNano ∧
      db.StartTimeUnixNano ≤ exec.StartTimeUnixNano ∧
      exec.EndTimeUnixNano ≤ db.EndTimeUnixNano ∧
      root.StartTimeUnixNano ≤ db.StartTimeUnixNano ∧
      db.EndTimeUnixNano ≤ root.EndTimeUnixNano := by
  have hne : ∀ a b : String, a ≠ b → traceID ++ a ≠ traceID ++ b := append_ne_append traceID
  have h0 : traceID ++ "-span-0" ≠ "" := append_suffix_ne_empty _ _ (by decide)
  have h1 : traceID ++ "-span-1" ≠ "" := append_suffix_ne_empty _ _ (by decide)
  have hw : ∀ k : Int, 0 ≤ k → k ≤ 200000000 → add64 now k = now + k := by
    intro k hk0 hk
    unfold inInt64 at hnow
    exact wrap64_of_inInt64 _ (by unfold inInt64; omega)
  refine ⟨rfl, rootSpan now traceID, dbSpan now traceID, sqlPrepareSpan now traceID,
    sqlExecuteSpan now traceID, rfl, ?_, rfl, h0, rfl, h1, rfl, rfl, h1, rfl, rfl, ?_⟩
  · simp only [rootSpan, dbSpan, sqlPrepareSpan, sqlExecuteSpan, List.nodup_cons,
      List.mem_cons, List.mem_singleton, List.not_mem_nil, List.nodup_nil, not_or, not_false_eq_true,
      and_true]
    exact ⟨⟨hne _ _ (by decide), hne _ _ (by decide), hne _ _ (by decide)⟩,
      ⟨hne _ _ (by decide), hne _ _ (by decide)⟩, hne _ _ (by decide)⟩
  · simp only [rootSpan, dbSpan, sqlPrepareSpan, sqlExecuteSpan]
    rw [hw 200000000 (by omega) (by omega), hw 50000000 (by omega) (by omega),
      hw 180000000 (by omega) (by omega), hw 60000000 (by omega) (by omega),
      hw 80000000 (by omega) (by omega), hw 90000000 (by omega) (by omega),
      hw 170000000 (by omega) (by omega)]
    omega

/-- Witness of C8: the trace id `"abc"` at clock value 1700000000000000000. -/
theorem details_tree_witness :
    inInt64 1700000000000000000 ∧
    (1700000000000000000 : Int) + 200000000 ≤ 9223372036854775807 ∧
    (generateSampleTraceDetails 1700000000000000000 "abc").Spans.length = 4 :=
  ⟨by unfold inInt64; omega, by omega,
    (details_tree 1700000000000000000 "abc" (by unfold inInt64; omega) (by omega)).1⟩

/-! ## Trace summaries -/

/-- C9, as stated, fails: the first sample summary announces 2 spans, while the
details of its trace id hold 4 spans, all with that trace id. -/
theorem spanCount_mismatch :
    sampleTrace 0 0 ∈ getRecentTraces 0 ∧
    (sampleTrace 0 0).SpanCount = 2 ∧
    (getTraceDetails 0 (sampleTrace 0 0).TraceID).Spans.length = 4 ∧
    ((getTraceDetails 0 (sampleTrace 0 0).TraceID).Spans.filter
      (fun s => decide (s.TraceID = (sampleTrace 0 0).TraceID))).length = 4 ∧
    ¬ (∀ t ∈ getRecentTraces 0,
        1 ≤ t.SpanCount ∧ t.SpanCount = (getTraceDetails 0 t.TraceID).Spans.length) := by
  have hmem : sampleTrace 0 0 ∈ getRecentTraces 0 := by
    unfold getRecentTraces
    rw [generateSampleTraces_eq_map]
    exact List.mem_map.mpr ⟨0, by decide, rfl⟩
  refine ⟨hmem, rfl, rfl, details_spans_with_id 0 _, fun h => ?_⟩
  have h2 := (h _ hmem).2
  revert h2
  decide

/-- C9, amended: every summary of `generateSampleTraces` has a span count of at
least 1, namely between 2 and 4, while `generateSampleTraceDetails` returns 4
spans, all carrying the requested id, for every trace id; the span count
equals that number exactly for the summaries `trace-2`, `trace-5` and
`trace-8`. -/
theorem spanCount_bounds (now clock : Int) (t : TraceInfo) (ht : t ∈ getRecentTraces now) :
    1 ≤ t.SpanCount ∧ 2 ≤ t.SpanCount ∧ t.SpanCount ≤ 4 ∧
    (getTraceDetails clock t.TraceID).Spans.length = 4 ∧
    ((getTraceDetails clock t.TraceID).Spans.filter
      (fun s => decide (s.TraceID = t.TraceID))).length = 4 ∧
    (t.SpanCount = (getTraceDetails clock t.TraceID).Spans.length
      ↔ t.TraceID ∈ ["trace-2", "trace-5", "trace-8"]) := by
  unfold getRecentTraces at ht
  rw [generateSampleTraces_eq_map] at ht
  obtain ⟨i, hi, rfl⟩ := List.mem_map.mp ht
  have hi := List.mem_range.mp hi
  have hlen : (getTraceDetails clock (sampleTrace now i).TraceID).Spans.length = 4 := rfl
  refine ⟨?_, ?_, ?_, hlen, details_spans_with_id clock _, ?_⟩
  · rw [sampleTrace_SpanCount]; omega
  · rw [sampleTrace_SpanCount]; omega
  · rw [sampleTrace_SpanCount]; omega
  · rw [hlen, sampleTrace_SpanCount, sampleTrace_TraceID]
    interval_cases i <;> decide

/-- Witness of C9 amended: the third sample summary, whose span count is 4. -/
theorem spanCount_bounds_witness :
    sampleTrace 0 2 ∈ getRecentTraces 0 ∧
    (sampleTrace 0 2).SpanCount = (getTraceDetails 7 (sampleTrace 0 2).TraceID).Spans.length :=
  have hmem : sampleTrace 0 2 ∈ getRecentTraces 0 := by
    unfold getRecentTraces
    rw [generateSampleTraces_eq_map]
    exact List.mem_map.mpr ⟨2, by decide, rfl⟩
  ⟨hmem, (spanCount_bounds 0 7 (sampleTrace 0 2) hmem).2.2.2.2.2.mpr (by decide)⟩

/-- C10: for a clock value from which 9 seconds can be subtracted and to which
the durations can be added within `int64`, `getRecentTraces` returns exactly 10
summaries, with strictly decreasing start times along the list, each with
duration equal to end time minus start time. -/
theorem recent_newest_first (now : Int) (hnow : inInt64 now)
    (hlow : -9223372036854775808 ≤ now - 9000000000)
    (hhigh : now + 10000000 ≤ 9223372036854775807) :
    (getRecentTraces now).length = 10 ∧
    (getRecentTraces now).Pairwise (fun a b => b.StartTimeUnixNano < a.StartTimeUnixNano) ∧
    (∀ t ∈ getRecentTraces now,
      t.DurationNanos = t.EndTimeUnixNano - t.StartTimeUnixNano ∧
      t.StartTimeUnixNano ≤ now ∧ now - 9000000000 ≤ t.StartTimeUnixNano) := by
  unfold getRecentTraces
  rw [generateSampleTraces_eq_map]
  refine ⟨by simp, ?_, ?_⟩
  · rw [List.pairwise_map]
    refine (List.pairwise_lt_range 10).imp_of_mem ?_
    intro i j hi hj hij
    have hi := sampleTrace_times now i (List.mem_range.mp hi) hnow hlow hhigh
    have hj := sampleTrace_times now j (List.mem_range.mp hj) hnow hlow hhigh
    rw [hi.1, hj.1]
    omega
  · intro t ht
    obtain ⟨i, hi, rfl⟩ := List.mem_map.mp ht
    have hi := List.mem_range.mp hi
    have h := sampleTrace_times now i hi hnow hlow hhigh
    rw [h.1, h.2.1, h.2.2]
    omega

/-- Witness of C10: the clock value 1700000000000000000. -/
theorem recent_newest_first_witness :
    inInt64 1700000000000000000 ∧
    (-9223372036854775808 : Int) ≤ 1700000000000000000 - 9000000000 ∧
    (1700000000000000000 : Int) + 10000000 ≤ 9223372036854775807 ∧
    (getRecentTraces 1700000000000000000).length = 10 ∧
    (getRecentTraces 1700000000000000000).Pairwise
      (fun a b => b.StartTimeUnixNano < a.StartTimeUnixNano) :=
  have h := recent_newest_first 1700000000000000000 (by unfold inInt64; omega) (by omega)
    (by omega)
  ⟨by unfold inInt64; omega, by omega, by omega, h.1, h.2.1⟩

/-! ## Todo handlers -/

theorem Atoi_of_matches (seg : String) (h : matchesIdPattern seg = true) :
    Atoi seg = if (parseDigits seg.data : Int) ≤ 9223372036854775807
      then some (parseDigits seg.data : Int) else none := by
  unfold matchesIdPattern at h
  unfold Atoi
  cases hd : seg.data with
  | nil => simp [hd] at h
  | cons c rest =>
    rw [hd] at h
    have hc : isDigitChar c = true := by
      simp only [List.all_cons, Bool.and_eq_true] at h
      exact h.2.1
    have h1 : c ≠ '-' := by
      rintro rfl
      revert hc
      decide
    have h2 : c ≠ '+' := by
      rintro rfl
      revert hc
      decide
    have hall : (c :: rest).all isDigitChar = true := by
      simp only [Bool.and_eq_true] at h
      exact h.2
    split
    · next r heq => exact absurd (List.cons.inj heq).1 h1
    · next r heq => exact absurd (List.cons.inj heq).1 h2
    · simp only [List.isEmpty_cons, hall, Bool.not_true, Bool.or_self, Bool.false_eq_true,
        if_false, List.head?_cons, Option.some.injEq, h1]
      have : (0 : Int) ≤ (parseDigits (c :: rest) : Int) := Int.ofNat_nonneg _
      split_ifs <;> first | rfl | omega

theorem updateTodo_invalid_id (db : StoreOp → ExecResult) (idParam : String)
    (decoded : Option Todo) (hbad : Atoi idParam = none) :
    updateTodo db idParam decoded = (handleError "Invalid todo ID" 400, []) := by
  unfold updateTodo
  rw [hbad]

theorem deleteTodo_invalid_id (db : StoreOp → ExecResult) (idParam : String)
    (hbad : Atoi idParam = none) :
    deleteTodo db idParam = (handleError "Invalid todo ID" 400, []) := by
  unfold deleteTodo
  rw [hbad]

theorem updateTodo_valid_id (db : StoreOp → ExecResult) (idParam : String) (id : Int)
    (todo : Todo) (hid : Atoi idParam = some id) :
    updateTodo db idParam (some todo)
      = match db (StoreOp.update todo.Completed id) with
        | ExecResult.execError _ =>
          (handleError "Failed to update todo" 500, [StoreOp.update todo.Completed id])
        | ExecResult.rowsError _ =>
          (handleError "Failed to get rows affected" 500, [StoreOp.update todo.Completed id])
        | ExecResult.rows rowsAffected =>
          if rowsAffected = 0 then
            (handleError "Todo not found" 404, [StoreOp.update todo.Completed id])
          else (noContent, [StoreOp.update todo.Completed id]) := by
  unfold updateTodo
  rw [hid]

theorem deleteTodo_valid_id (db : StoreOp → ExecResult) (idParam : String) (id : Int)
    (hid : Atoi idParam = some id) :
    deleteTodo db idParam
      = match db (StoreOp.delete id) with
        | ExecResult.execError _ =>
          (handleError "Failed to delete todo" 500, [StoreOp.delete id])
        | ExecResult.rowsError _ =>
          (handleError "Failed to get rows affected" 500, [StoreOp.delete id])
        | ExecResult.rows rowsAffected =>
          if rowsAffected = 0 then (handleError "Todo not found" 404, [StoreOp.delete id])
          else (noContent, [StoreOp.delete id]) := by
  unfold deleteTodo
  rw [hid]

/-- The status of `updateTodo` is 204 exactly when the store returns a count
other than 0, which is the test `rowsAffected == 0` of the source. -/
theorem updateTodo_noContent_iff (db : StoreOp → ExecResult) (idParam : String) (id : Int)
    (todo : Todo) (hid : Atoi idParam = some id) :
    (updateTodo db idParam (some todo)).1.statusCode = 204
      ↔ ∃ n : Int, db (StoreOp.update todo.Completed id) = ExecResult.rows n ∧ n ≠ 0 := by
  rw [updateTodo_valid_id db idParam id todo hid]
  cases h : db (StoreOp.update todo.Completed id) with
  | execError e => simp [handleError]
  | rowsError e => simp [handleError]
  | rows n =>
    by_cases hn : n = 0
    · simp [hn, handleError]
    · simp [hn, noContent]

/-- The status of `deleteTodo` is 204 exactly when the store returns a count
other than 0. -/
theorem deleteTodo_noContent_iff (db : StoreOp → ExecResult) (idParam : String) (id : Int)
    (hid : Atoi idParam = some id) :
    (deleteTodo db idParam).1.statusCode = 204
      ↔ ∃ n : Int, db (StoreOp.delete id) = ExecResult.rows n ∧ n ≠ 0 := by
  rw [deleteTodo_valid_id db idParam id hid]
  cases h : db (StoreOp.delete id) with
  | execError e => simp [handleError]
  | rowsError e => simp [handleError]
  | rows n =>
    by_cases hn : n = 0
    · simp [hn, handleError]
    · simp [hn, noContent]

/-- C11, as stated, fails: for the non-numeric segment `abc`, which the integer
parser rejects, the route pattern does not match, and a PUT or DELETE request
gets the 404 of the router instead of the 400 of the handler. -/
theorem nonnumeric_id_not_400 :
    CanonicalSegment "abc" ∧ Atoi "abc" = none ∧
    serveTodoItem (fun _ => ExecResult.rows 1) Method.PUT "abc" (some ⟨0, "x", true, 0⟩)
      = (notFound, []) ∧
    serveTodoItem (fun _ => ExecResult.rows 1) Method.DELETE "abc" none = (notFound, []) ∧
    (serveTodoItem (fun _ => ExecResult.rows 1) Method.PUT "abc"
      (some ⟨0, "x", true, 0⟩)).1.statusCode ≠ 400 ∧
    (serveTodoItem (fun _ => ExecResult.rows 1) Method.DELETE "abc" none).1
      ≠ handleError "Invalid todo ID" 400 := by
  refine ⟨?_, by decide, by decide, by decide, by decide, by decide⟩
  unfold CanonicalSegment
  decide

/-- C11, amended: an id the integer parser rejects makes `updateTodo` and
`deleteTodo` answer 400 with the body `{"error": "Invalid todo ID"}` and execute
no statement; a PUT or DELETE request reaches them with such an id only when the
id segment is a run of digits, whose value is then beyond the `int` range; for
any other segment the route does not match, no statement is executed, and on a
canonical path the router answers 404. -/
theorem invalid_id_response (db : StoreOp → ExecResult) (method : Method) (seg : String)
    (decoded : Option Todo) (hbad : Atoi seg = none) :
    updateTodo db seg decoded = (handleError "Invalid todo ID" 400, []) ∧
    deleteTodo db seg = (handleError "Invalid todo ID" 400, []) ∧
    (serveTodoItem db method seg decoded).2 = [] ∧
    (matchesIdPattern seg = true →
      9223372036854775807 < (parseDigits seg.data : Int) ∧
      serveTodoItem db method seg decoded = (handleError "Invalid todo ID" 400, [])) ∧
    (matchesIdPattern seg = false → CanonicalSegment seg →
      serveTodoItem db method seg decoded = (notFound, [])) := by
  have hu := updateTodo_invalid_id db seg decoded hbad
  have hd := deleteTodo_invalid_id db seg hbad
  have hserve : matchesIdPattern seg = true →
      serveTodoItem db method seg decoded = (handleError "Invalid todo ID" 400, []) := by
    intro hm
    unfold serveTodoItem
    rw [if_pos hm]
    cases method
    · exact hu
    · exact hd
  have hmiss : matchesIdPattern seg = false →
      serveTodoItem db method seg decoded = (notFound, []) := by
    intro hm
    unfold serveTodoItem
    rw [hm]
    rfl
  refine ⟨hu, hd, ?_, fun hm => ⟨?_, hserve hm⟩, fun hm _ => hmiss hm⟩
  · cases hm : matchesIdPattern seg
    · rw [hmiss hm]
    · rw [hserve hm]
  · have h := Atoi_of_matches seg hm
    rw [hbad] at h
    by_contra hle
    rw [if_pos (not_lt.mp hle)] at h
    exact Option.noConfusion h

/-- Witness of C11 amended: the digit run `9223372036854775808`, one beyond the
largest `int`, on a PUT request. -/
theorem invalid_id_response_witness :
    Atoi "9223372036854775808" = none ∧ matchesIdPattern "9223372036854775808" = true ∧
    serveTodoItem (fun _ => ExecResult.rows 1) Method.PUT "9223372036854775808"
        (some ⟨0, "x", true, 0⟩)
      = (handleError "Invalid todo ID" 400, []) :=
  ⟨by decide, by decide,
    ((invalid_id_response (fun _ => ExecResult.rows 1) Method.PUT "9223372036854775808"
      (some ⟨0, "x", true, 0⟩) (by decide)).2.2.2.1 (by decide)).2⟩

/-- C12: for an id the integer parser accepts, a decoded body, and a store that
reports row counts, `updateTodo` and `deleteTodo` answer 404 with the body
`{"error": "Todo not found"}` when no row is affected, 204 exactly when the
statement succeeds with a positive count, and 500 when the store call fails;
each executes its one statement. -/
theorem update_delete_status (db : StoreOp → ExecResult) (idParam : String) (id : Int)
    (todo : Todo) (hid : Atoi idParam = some id)
    (hcount : ∀ (op : StoreOp) (n : Int), db op = ExecResult.rows n → 0 ≤ n) :
    StatusContract (db (StoreOp.update todo.Completed id))
      (updateTodo db idParam (some todo)).1 ∧
    StatusContract (db (StoreOp.delete id)) (deleteTodo db idParam).1 ∧
    (updateTodo db idParam (some todo)).2 = [StoreOp.update todo.Completed id] ∧
    (deleteTodo db idParam).2 = [StoreOp.delete id] := by
  have hpos : ∀ (op : StoreOp), (∃ n : Int, db op = ExecResult.rows n ∧ n ≠ 0)
      ↔ ∃ n : Int, db op = ExecResult.rows n ∧ 0 < n := by
    intro op
    constructor
    · rintro ⟨n, hn, hne⟩
      exact ⟨n, hn, lt_of_le_of_ne (hcount op n hn) (Ne.symm hne)⟩
    · rintro ⟨n, hn, hlt⟩
      exact ⟨n, hn, ne_of_gt hlt⟩
  refine ⟨⟨?_, ?_, ?_⟩, ⟨?_, ?_, ?_⟩, ?_, ?_⟩
  · intro h0
    rw [updateTodo_valid_id db idParam id todo hid, h0]
    exact ⟨rfl, rfl⟩
  · rw [updateTodo_noContent_iff db idParam id todo hid]
    exact hpos _
  · intro err he
    rw [updateTodo_valid_id db idParam id todo hid, he]
    rfl
  · intro h0
    rw [deleteTodo_valid_id db idParam id hid, h0]
    exact ⟨rfl, rfl⟩
  · rw [deleteTodo_noContent_iff db idParam id hid]
    exact hpos _
  · intro err he
    rw [deleteTodo_valid_id db idParam id hid, he]
    rfl
  · rw [updateTodo_valid_id db idParam id todo hid]
    cases db (StoreOp.update todo.Completed id) with
    | execError e => rfl
    | rowsError e => rfl
    | rows n => by_cases hn : n = 0 <;> simp [hn]
  · rw [deleteTodo_valid_id db idParam id hid]
    cases db (StoreOp.delete id) with
    | execError e => rfl
    | rowsError e => rfl
    | rows n => by_cases hn : n = 0 <;> simp [hn]

/-- Witness of C12: the id `7` on a store where no row is affected. -/
theorem update_delete_status_witness :
    Atoi "7" = some 7 ∧
    (∀ (op : StoreOp) (n : Int),
      (fun _ : StoreOp => ExecResult.rows 0) op = ExecResult.rows n → 0 ≤ n) ∧
    (deleteTodo (fun _ => ExecResult.rows 0) "7").1 = handleError "Todo not found" 404 ∧
    (updateTodo (fun _ => ExecResult.rows 0) "7" (some ⟨0, "x", true, 0⟩)).1.statusCode
      = 404 :=
  have hcount : ∀ (op : StoreOp) (n : Int),
      (fun _ : StoreOp => ExecResult.rows 0) op = ExecResult.rows n → 0 ≤ n :=
    fun _ n h => le_of_eq (ExecResult.rows.inj h)
  have h := update_delete_status (fun _ => ExecResult.rows 0) "7" 7 ⟨0, "x", true, 0⟩
    (by decide) hcount
  ⟨by decide, hcount, by decide, (h.1.1 rfl).1⟩

end TraceHandler
